import Mathlib

/-!
Shallow embedding of `src/luigi_pipeline/pipeline.py`, a five-stage luigi
batch pipeline (download, extract archive, split section-delimited text
files into tab-separated tables, drop columns from the Probes table,
cleanup).  Files are modelled as lists of lines (without the trailing
newline); pandas dataframes are modelled by an optional header row plus a
list of string rows; fallible library calls return `Except String`.
-/

namespace LuigiPipeline

/-- A pandas dataframe, as far as this pipeline observes it: an optional
header row (`none` models `header=None`, i.e. positional column labels)
and the data rows, every cell kept as the raw string between tabs. -/
structure Table where
  header : Option (List String)
  rows : List (List String)
deriving DecidableEq, Repr

/-- Splits one line of a tab-separated file into its cells
(the `sep='\t'` tokenization of `pd.read_csv`). -/
def splitTabAux : List Char → List (List Char)
  | [] => [[]]
  | c :: rest =>
    match splitTabAux rest with
    | [] => [[c]]
    | f :: fs => if c = '\t' then [] :: f :: fs else (c :: f) :: fs

/-- Cells of one tab-separated line, as strings. -/
def splitTab (l : String) : List String :=
  (splitTabAux l.toList).map (fun cs => String.mk cs)

/-- Model of the library call `pd.read_csv(buffer, sep='\t', header=h)`
on an in-memory buffer holding the given lines: blank lines are skipped
(pandas default `skip_blank_lines=True`); an empty buffer raises
`EmptyDataError`; with `inferHeader = true` (pandas `header='infer'`)
the first line becomes the header row, otherwise (`header=None`) every
line is data.  Type coercion and ragged-row handling of pandas are out
of scope (the spec treats CSV primitives as library calls). -/
def readCsv (inferHeader : Bool) (buf : List String) : Except String Table :=
  match buf.filter (fun l => !(l == "")) with
  | [] => Except.error "EmptyDataError: No columns to parse from file"
  | b0 :: rest =>
    if inferHeader then Except.ok ⟨some (splitTab b0), rest.map splitTab⟩
    else Except.ok ⟨none, (b0 :: rest).map splitTab⟩

/-- Python dict assignment `dfs[key] = value`: replace the value at an
existing key in place, otherwise append the new binding. -/
def updateAssoc : List (Option String × Table) → Option String → Table →
    List (Option String × Table)
  | [], k, v => [(k, v)]
  | (k', v') :: rest, k, v =>
    if k' = k then (k, v) :: rest else (k', v') :: updateAssoc rest k v

/-- Python `line.startswith('[')`. -/
def isMarker (l : String) : Bool :=
  match l.toList with
  | [] => false
  | c :: _ => c = '['

/-- Characters stripped off a marker line by `line.strip('[]\n')`. -/
def markerStripSet : List Char := ['[', ']', '\n']

/-- Python `line.strip('[]\n')`: drop characters of the set from both
ends of the line. -/
def stripMarker (l : String) : String :=
  String.mk (((l.toList.dropWhile (· ∈ markerStripSet)).reverse.dropWhile
    (· ∈ markerStripSet)).reverse)

/-- Loop state of `SplitTables._split_file`: the tables collected so far
(`dfs`, a Python dict keyed by section name — `none` models the initial
Python `None` key), the current section name (`write_key`, `none` models
Python `None`), and the accumulated line buffer (`fio`). -/
structure SplitState where
  dfs : List (Option String × Table)
  write_key : Option String
  buf : List String
deriving DecidableEq, Repr

/-- One iteration of the `for line in f` loop of
`SplitTables._split_file` (pipeline.py lines 86-96).  A marker line
finalizes the previous section when `write_key` is truthy — parsing the
buffer headerless exactly when the section is named `Heading` — then
resets the buffer and takes the stripped marker as the new key; a data
line is buffered only when `write_key` is truthy (the empty string,
produced by a bare `[]` marker, is falsy in Python, like `None`). -/
def splitStep (st : SplitState) (line : String) : Except String SplitState :=
  if isMarker line then
    match st.write_key with
    | none => Except.ok ⟨st.dfs, some (stripMarker line), []⟩
    | some k =>
      if k = "" then Except.ok ⟨st.dfs, some (stripMarker line), []⟩
      else
        match readCsv (!(k = "Heading" : Bool)) st.buf with
        | Except.error e => Except.error e
        | Except.ok t =>
          Except.ok ⟨updateAssoc st.dfs (some k) t, some (stripMarker line), []⟩
  else
    match st.write_key with
    | none => Except.ok st
    | some k => if k = "" then Except.ok st
                else Except.ok { st with buf := st.buf ++ [line] }

/-- Runs the line loop of `_split_file` from a given state. -/
def splitRunFrom (st : SplitState) : List String → Except String SplitState
  | [] => Except.ok st
  | l :: rest =>
    match splitStep st l with
    | Except.error e => Except.error e
    | Except.ok st' => splitRunFrom st' rest

/-- End-of-file finalization of `_split_file` (pipeline.py lines 98-99):
unconditionally `dfs[write_key] = pd.read_csv(fio, sep='\t')`, i.e. the
buffer is parsed with the header always inferred, whatever the section
name, and stored under the current `write_key` (possibly `None`). -/
def splitFinish (st : SplitState) : Except String (List (Option String × Table)) :=
  match readCsv true st.buf with
  | Except.error e => Except.error e
  | Except.ok t => Except.ok (updateAssoc st.dfs st.write_key t)

/-- The whole `SplitTables._split_file` parse of one text file, given as
its list of lines: run the loop from the initial state (`dfs = {}`,
`write_key = None`, empty buffer), then the end-of-file finalization. -/
def splitFile (lines : List String) : Except String (List (Option String × Table)) :=
  match splitRunFrom ⟨[], none, []⟩ lines with
  | Except.error e => Except.error e
  | Except.ok st => splitFinish st

/-- Python `f"{key}.tsv"` for a dict key that is a string or `None`. -/
def outputFileName : Option String → String
  | none => "None" ++ ".tsv"
  | some s => s ++ ".tsv"

/-- The `<name>.tsv` files written by `_split_file` (pipeline.py lines
102-103), paired with their tables; a raised exception aborts the method
before the write loop, so an error writes nothing. -/
def splitFileWrites (lines : List String) : List (String × Table) :=
  match splitFile lines with
  | Except.error _ => []
  | Except.ok dfs => dfs.map (fun kv => (outputFileName kv.1, kv.2))

/-- The hardcoded drop list `COLUMNS_TO_DROP` (pipeline.py lines 11-14). -/
def COLUMNS_TO_DROP : List String :=
  ["Definition", "Ontology_Component", "Ontology_Process",
   "Ontology_Function", "Synonyms", "Obsolete_Probe_Id", "Probe_Sequence"]

/-- The Probes table as `RemoveColumns.run` reads it back from
`Probes.tsv` (header inferred): a header row of column names and the
data rows. -/
structure ProbesTable where
  cols : List String
  rows : List (List String)
deriving DecidableEq, Repr

/-- Projects one data row onto the columns whose name survives the drop
list, pairing cells with the header positionally. -/
def dropRow (cols row : List String) : List String :=
  ((cols.zip row).filter (fun p => !(COLUMNS_TO_DROP.contains p.1))).map
    (fun p => p.2)

/-- The dataframe transformation of `RemoveColumns.run` (pipeline.py
line 125): `df.drop(columns=COLUMNS_TO_DROP, inplace=True)` with the
pandas default `errors='raise'` — a `KeyError` is raised as soon as any
label of the drop list is absent from the column axis, and only when
every label is present are exactly those columns removed, the remaining
columns keeping their original relative order. -/
def removeColumnsRun (t : ProbesTable) : Except String ProbesTable :=
  if COLUMNS_TO_DROP.all (fun c => t.cols.contains c) then
    Except.ok ⟨t.cols.filter (fun c => !(COLUMNS_TO_DROP.contains c)),
               t.rows.map (dropRow t.cols)⟩
  else Except.error "KeyError: not found in axis"

/-- Python `os.path.join` for the relative paths this pipeline builds. -/
def joinPath (a b : String) : String := a ++ "/" ++ b

/-- The constant `DATA_DIR` (pipeline.py line 10). -/
def DATA_DIR : String := "data"

/-- `DownloadDataset.output` (pipeline.py line 26). -/
def downloadOutputPath (d : String) : String :=
  joinPath DATA_DIR (d ++ "_RAW.tar")

/-- `ExtractArchive.output` (pipeline.py line 47). -/
def extractOutputPath (d : String) : String :=
  joinPath DATA_DIR (d ++ "_extracted")

/-- `SplitTables.output` (pipeline.py line 68). -/
def splitOutputPath (d : String) : String :=
  joinPath DATA_DIR (d ++ "_split")

/-- `RemoveColumns.output` (pipeline.py line 118). -/
def removeColumnsOutputPath (d : String) : String :=
  joinPath DATA_DIR (d ++ "_final")

/-- The directory `Cleanup` works in: `Cleanup.requires` is
`RemoveColumns` (pipeline.py line 137), so `self.input().path` is
`RemoveColumns.output().path`, the `<dataset>_final` directory. -/
def cleanupInputPath (d : String) : String := removeColumnsOutputPath d

/-- `Cleanup.output` (pipeline.py line 141): the marker file
`cleanup_complete.txt` joined to `self.input().path`. -/
def cleanupOutputPath (d : String) : String :=
  joinPath (cleanupInputPath d) "cleanup_complete.txt"

/-- Python `filename.endswith(".txt")`. -/
def endsWithTxt (f : String) : Bool :=
  List.isSuffixOf ".txt".toList f.toList

/-- The deletion loop of `Cleanup.run` (pipeline.py lines 145-147)
applied to a directory listing: the files that remain are exactly those
whose name does not end in `.txt`. -/
def cleanupRemaining (files : List String) : List String :=
  files.filter (fun f => !(endsWithTxt f))

/-- The luigi tasks declared in pipeline.py, one constructor per class. -/
inductive Stage where
  | download
  | extractArchive
  | splitTables
  | removeColumns
  | cleanup
  | pipeline
deriving DecidableEq, Repr

/-- The `requires` link of each task (pipeline.py lines 41-43, 62-64,
112-114, 135-137, 160-162); `DownloadDataset` has none. -/
def requiresOf : Stage → Option Stage
  | Stage.download => none
  | Stage.extractArchive => some Stage.download
  | Stage.splitTables => some Stage.extractArchive
  | Stage.removeColumns => some Stage.splitTables
  | Stage.cleanup => some Stage.removeColumns
  | Stage.pipeline => some Stage.cleanup

/-- Modelled from the spec: the luigi scheduler itself is not in src/,
so §4.2 of the spec gives its contract — build the linear chain of
stages by walking `requires` links backward from the final stage to the
root.  The walk is bounded by fuel; six stages exist, so fuel 8 never
runs out. -/
def chainAux : Nat → Stage → List Stage
  | 0, s => [s]
  | n + 1, s =>
    match requiresOf s with
    | none => [s]
    | some p => chainAux n p ++ [s]

/-- Modelled from the spec: §4.2 — the dependency chain of a final
stage, root (download) first. -/
def resolveChain (s : Stage) : List Stage := chainAux 8 s

/-- Modelled from the spec: §4.1-§4.2 — execute the chain in order,
skipping exactly the stages whose output target already exists (`done`),
running every other one; returns the stages actually run, in execution
order. -/
def runPipeline (done : Stage → Bool) (final : Stage) : List Stage :=
  (resolveChain final).filter (fun s => !(done s))

/-- Modelled from the spec: §4.2 completion contract — a stage's `run`
must, on success, leave its output target present; so after a successful
run a stage's target exists iff it existed before or the stage was run. -/
def afterRun (done : Stage → Bool) (final : Stage) : Stage → Bool :=
  fun s => done s || decide (s ∈ runPipeline done final)

/-- Running the loop over an appended list runs the two parts in
sequence, an error in the first part aborting the second. -/
theorem splitRunFrom_append (l1 l2 : List String) (st : SplitState) :
    splitRunFrom st (l1 ++ l2) =
      match splitRunFrom st l1 with
      | Except.error e => Except.error e
      | Except.ok st' => splitRunFrom st' l2 := by
  induction l1 generalizing st with
  | nil => simp [splitRunFrom]
  | cons l rest ih =>
    simp only [List.cons_append, splitRunFrom]
    cases splitStep st l with
    | error e => rfl
    | ok st' => exact ih st'

/-- With a truthy current section name, a run of non-marker lines is
appended to the buffer and changes nothing else. -/
theorem splitRunFrom_data (k : String) (hk : ¬ k = "")
    (lines : List String) (hnm : ∀ l ∈ lines, isMarker l = false) :
    ∀ dfs buf, splitRunFrom ⟨dfs, some k, buf⟩ lines =
      Except.ok ⟨dfs, some k, buf ++ lines⟩ := by
  induction lines with
  | nil => intro dfs buf; simp [splitRunFrom]
  | cons l rest ih =>
    intro dfs buf
    have hl : isMarker l = false := hnm l (List.mem_cons_self l rest)
    have hrest : ∀ l' ∈ rest, isMarker l' = false :=
      fun l' hl' => hnm l' (List.mem_cons_of_mem l hl')
    simp only [splitRunFrom, splitStep, hl, Bool.false_eq_true, if_false, hk,
      if_neg hk]
    have := ih hrest dfs (buf ++ [l])
    simpa [List.append_assoc] using this

/-- A buffer of non-blank lines passes the blank-line filter untouched. -/
theorem filter_nonblank (buf : List String) (hnb : ∀ l ∈ buf, ¬ l = "") :
    buf.filter (fun l => !(l == "")) = buf := by
  apply List.filter_eq_self.mpr
  intro a ha
  simpa using hnb a ha

/-- Combines the two loop lemmas: with a truthy section name, a run of
non-marker lines buffers them and the loop continues on the remainder. -/
theorem splitRunFrom_data_append (k : String) (hk : ¬ k = "")
    (datalines rest : List String)
    (hnm : ∀ l ∈ datalines, isMarker l = false)
    (dfs : List (Option String × Table)) (buf : List String) :
    splitRunFrom ⟨dfs, some k, buf⟩ (datalines ++ rest) =
      splitRunFrom ⟨dfs, some k, buf ++ datalines⟩ rest := by
  rw [splitRunFrom_append, splitRunFrom_data k hk datalines hnm dfs buf]

/-- Parsing a non-empty blank-free buffer with the header inferred takes
the first line as the header row. -/
theorem readCsv_infer (b0 : String) (brest : List String)
    (hnb : ∀ l ∈ b0 :: brest, ¬ l = "") :
    readCsv true (b0 :: brest) =
      Except.ok ⟨some (splitTab b0), brest.map splitTab⟩ := by
  simp only [readCsv]
  rw [filter_nonblank _ hnb]
  simp

/-- Parsing a non-empty blank-free buffer with `header=None` keeps every
line as data. -/
theorem readCsv_noheader (b0 : String) (brest : List String)
    (hnb : ∀ l ∈ b0 :: brest, ¬ l = "") :
    readCsv false (b0 :: brest) =
      Except.ok ⟨none, (b0 :: brest).map splitTab⟩ := by
  simp only [readCsv]
  rw [filter_nonblank _ hnb]
  simp

/-- C1: when a new marker line finalizes a section mid-file, the
accumulated buffer is parsed as a tab-separated table with no header row
if and only if the section name is the literal `Heading` (every other
name gets the header inferred), and the table is stored keyed by the
section name. -/
theorem claim_C1_midfile_header_rule
    (m1 m2 name : String) (buf : List String)
    (hm1 : isMarker m1 = true) (hname : stripMarker m1 = name)
    (hn : ¬ name = "") (hm2 : isMarker m2 = true)
    (hbne : buf ≠ []) (hnb : ∀ l ∈ buf, ¬ l = "")
    (hnm : ∀ l ∈ buf, isMarker l = false) :
    ∃ t, splitRunFrom ⟨[], none, []⟩ (m1 :: (buf ++ [m2]))
        = Except.ok ⟨[(some name, t)], some (stripMarker m2), []⟩
      ∧ (t.header = none ↔ name = "Heading") := by
  obtain ⟨b0, brest, rfl⟩ := List.exists_cons_of_ne_nil hbne
  have hstep1 : splitStep ⟨[], none, []⟩ m1 =
      Except.ok ⟨[], some name, []⟩ := by
    simp [splitStep, hm1, hname]
  have hfirst : splitRunFrom ⟨[], none, []⟩ (m1 :: ((b0 :: brest) ++ [m2]))
      = splitRunFrom ⟨[], some name, []⟩ ((b0 :: brest) ++ [m2]) := by
    simp only [splitRunFrom, hstep1]
  by_cases hH : name = "Heading"
  case pos =>
    refine ⟨⟨none, (b0 :: brest).map splitTab⟩, ?_, by simp [hH]⟩
    have hstep2 : splitStep ⟨[], some name, b0 :: brest⟩ m2 =
        Except.ok ⟨[(some name, ⟨none, (b0 :: brest).map splitTab⟩)],
          some (stripMarker m2), []⟩ := by
      simp [splitStep, hm2, hn, hH, readCsv_noheader b0 brest hnb, updateAssoc]
    rw [hfirst, splitRunFrom_data_append name hn (b0 :: brest) [m2] hnm [] []]
    simp only [List.nil_append]
    simp [splitRunFrom, hstep2]
  case neg =>
    refine ⟨⟨some (splitTab b0), brest.map splitTab⟩, ?_, by simp [hH]⟩
    have hstep2 : splitStep ⟨[], some name, b0 :: brest⟩ m2 =
        Except.ok ⟨[(some name, ⟨some (splitTab b0), brest.map splitTab⟩)],
          some (stripMarker m2), []⟩ := by
      simp [splitStep, hm2, hn, hH, readCsv_infer b0 brest hnb, updateAssoc]
    rw [hfirst, splitRunFrom_data_append name hn (b0 :: brest) [m2] hnm [] []]
    simp only [List.nil_append]
    simp [splitRunFrom, hstep2]

/-- Witness for C1 at a concrete input: the section named `Heading`,
finalized by the marker `[B]`, is parsed headerless. -/
theorem claim_C1_witness :
    ∃ t, splitRunFrom ⟨[], none, []⟩ ("[Heading]" :: (["a\tb", "c\td"] ++ ["[B]"]))
        = Except.ok ⟨[(some "Heading", t)], some (stripMarker "[B]"), []⟩
      ∧ (t.header = none ↔ "Heading" = "Heading") :=
  claim_C1_midfile_header_rule "[Heading]" "[B]" "Heading" ["a\tb", "c\td"]
    (by decide) (by decide) (by decide) (by decide) (by decide)
    (by decide) (by decide)

/-- C2: a final open section is finalized at end-of-file with the header
always inferred — the marker may carry any name, the literal `Heading`
included, so a trailing `Heading` section does get a header row, unlike
the mid-file rule. -/
theorem claim_C2_trailing_header_inferred
    (m b0 : String) (brest : List String)
    (hm : isMarker m = true) (hk : ¬ stripMarker m = "")
    (hnb : ∀ l ∈ b0 :: brest, ¬ l = "")
    (hnm : ∀ l ∈ b0 :: brest, isMarker l = false) :
    splitFile (m :: (b0 :: brest)) =
      Except.ok [(some (stripMarker m),
        ⟨some (splitTab b0), brest.map splitTab⟩)] := by
  have hstep1 : splitStep ⟨[], none, []⟩ m =
      Except.ok ⟨[], some (stripMarker m), []⟩ := by
    simp [splitStep, hm]
  have hfirst : splitRunFrom ⟨[], none, []⟩ (m :: (b0 :: brest))
      = splitRunFrom ⟨[], some (stripMarker m), []⟩ (b0 :: brest) := by
    simp only [splitRunFrom, hstep1]
  have hrun : splitRunFrom ⟨[], some (stripMarker m), []⟩ (b0 :: brest)
      = Except.ok ⟨[], some (stripMarker m), b0 :: brest⟩ := by
    simpa using splitRunFrom_data (stripMarker m) hk (b0 :: brest) hnm [] []
  simp only [splitFile, hfirst, hrun]
  simp [splitFinish, readCsv_infer b0 brest hnb, updateAssoc]

/-- Witness for C2 at a concrete input: a file that is a single open
`[Heading]` section gets a header row from the end-of-file path. -/
theorem claim_C2_witness :
    splitFile ("[Heading]" :: ("a\tb" :: ["c\td"])) =
      Except.ok [(some (stripMarker "[Heading]"),
        ⟨some (splitTab "a\tb"), ["c\td"].map splitTab⟩)] :=
  claim_C2_trailing_header_inferred "[Heading]" "a\tb" ["c\td"]
    (by decide) (by decide) (by decide) (by decide)

/-- A marker line always leaves the loop with an empty buffer. -/
theorem splitStep_marker_buf (st : SplitState) (line : String)
    (st' : SplitState) (hm : isMarker line = true)
    (h : splitStep st line = Except.ok st') : st'.buf = [] := by
  cases st with
  | mk dfs wk buf =>
    cases wk with
    | none =>
      simp only [splitStep, hm, if_true, Except.ok.injEq] at h
      rw [← h]
    | some k =>
      by_cases hk : k = ""
      · simp only [splitStep, hm, if_true, hk, if_pos rfl, Except.ok.injEq] at h
        rw [← h]
      · simp only [splitStep, hm, if_true, if_neg hk] at h
        cases hcsv : readCsv (!(k = "Heading" : Bool)) buf with
        | error e => rw [hcsv] at h; simp at h
        | ok t =>
          rw [hcsv] at h
          simp only [Except.ok.injEq] at h
          rw [← h]

/-- C10: any input file whose final line is a marker makes `_split_file`
fail — the end-of-file finalization parses the then-empty buffer and
`pd.read_csv` raises on an empty input instead of producing an empty
table (if an earlier line already raised, that earlier error surfaces). -/
theorem claim_C10_trailing_marker_fails (lines : List String) (m : String)
    (hm : isMarker m = true) :
    ∃ e, splitFile (lines ++ [m]) = Except.error e := by
  cases hr : splitRunFrom ⟨[], none, []⟩ lines with
  | error e =>
    refine ⟨e, ?_⟩
    simp only [splitFile, splitRunFrom_append, hr]
  | ok st =>
    cases hs : splitStep st m with
    | error e =>
      refine ⟨e, ?_⟩
      simp only [splitFile, splitRunFrom_append, hr, splitRunFrom, hs]
    | ok st' =>
      refine ⟨"EmptyDataError: No columns to parse from file", ?_⟩
      have hbuf : st'.buf = [] := splitStep_marker_buf st m st' hm hs
      simp only [splitFile, splitRunFrom_append, hr, splitRunFrom, hs,
        splitFinish, hbuf]
      simp [readCsv]

/-- Witness for C10 at a concrete input: a file ending in an open marker
with no data after it fails the split. -/
theorem claim_C10_witness :
    ∃ e, splitFile (["[A]", "x\ty"] ++ ["[B]"]) = Except.error e :=
  claim_C10_trailing_marker_fails ["[A]", "x\ty"] "[B]" (by decide)

/-- With no current section name set, non-marker lines are discarded and
the loop state does not change. -/
theorem splitRunFrom_skip (lines : List String)
    (hnm : ∀ l ∈ lines, isMarker l = false)
    (dfs : List (Option String × Table)) (buf : List String) :
    splitRunFrom ⟨dfs, none, buf⟩ lines = Except.ok ⟨dfs, none, buf⟩ := by
  induction lines with
  | nil => simp [splitRunFrom]
  | cons l rest ih =>
    have hl : isMarker l = false := hnm l (List.mem_cons_self l rest)
    have hrest : ∀ l' ∈ rest, isMarker l' = false :=
      fun l' hl' => hnm l' (List.mem_cons_of_mem l hl')
    simp only [splitRunFrom, splitStep, hl, Bool.false_eq_true, if_false]
    exact ih hrest

/-- C6: an input file with zero marker lines produces no tables and no
output file is ever written — the end-of-file finalization parses the
still-empty buffer under the unset key and raises `EmptyDataError`,
aborting the method before its write loop. -/
theorem claim_C6_no_markers_no_tables (lines : List String)
    (hnm : ∀ l ∈ lines, isMarker l = false) :
    splitFile lines =
      Except.error "EmptyDataError: No columns to parse from file"
    ∧ splitFileWrites lines = [] := by
  have hrun := splitRunFrom_skip lines hnm [] []
  refine ⟨?_, ?_⟩
  · simp only [splitFile, hrun, splitFinish]
    simp [readCsv]
  · simp only [splitFileWrites, splitFile, hrun, splitFinish]
    simp [readCsv]

/-- Witness for C6 at a concrete input: a marker-free file with data
lines yields no written table. -/
theorem claim_C6_witness :
    splitFile ["x\ty", "1\t2"] =
      Except.error "EmptyDataError: No columns to parse from file"
    ∧ splitFileWrites ["x\ty", "1\t2"] = [] :=
  claim_C6_no_markers_no_tables ["x\ty", "1\t2"] (by decide)

/-- A non-empty blank-free buffer parses successfully under either
header mode. -/
theorem readCsv_ok_of_nonblank (hdr : Bool) (b0 : String)
    (brest : List String) (hnb : ∀ l ∈ b0 :: brest, ¬ l = "") :
    ∃ t, readCsv hdr (b0 :: brest) = Except.ok t := by
  cases hdr with
  | true => exact ⟨_, readCsv_infer b0 brest hnb⟩
  | false => exact ⟨_, readCsv_noheader b0 brest hnb⟩

/-- C9: section names need not be unique within a file — when two
sections carry the same name, the table parsed from the later section
overwrites the earlier one in the per-file dict, and only it is written
out to `<section-name>.tsv`. -/
theorem claim_C9_duplicate_section_last_wins
    (m1 m2 name : String) (buf1 buf2 : List String)
    (hm1 : isMarker m1 = true) (hm2 : isMarker m2 = true)
    (hs1 : stripMarker m1 = name) (hs2 : stripMarker m2 = name)
    (hn : ¬ name = "")
    (hb1 : buf1 ≠ []) (hnb1 : ∀ l ∈ buf1, ¬ l = "")
    (hnm1 : ∀ l ∈ buf1, isMarker l = false)
    (hb2 : buf2 ≠ []) (hnb2 : ∀ l ∈ buf2, ¬ l = "")
    (hnm2 : ∀ l ∈ buf2, isMarker l = false) :
    ∃ t2, splitFile (m1 :: (buf1 ++ (m2 :: buf2))) =
        Except.ok [(some name, t2)]
      ∧ readCsv true buf2 = Except.ok t2
      ∧ splitFileWrites (m1 :: (buf1 ++ (m2 :: buf2))) =
          [(name ++ ".tsv", t2)] := by
  obtain ⟨b0, brest, rfl⟩ := List.exists_cons_of_ne_nil hb1
  obtain ⟨c0, crest, rfl⟩ := List.exists_cons_of_ne_nil hb2
  obtain ⟨t1, hcsv1⟩ :=
    readCsv_ok_of_nonblank (!(name = "Heading" : Bool)) b0 brest hnb1
  have hstep1 : splitStep ⟨[], none, []⟩ m1 =
      Except.ok ⟨[], some name, []⟩ := by
    simp [splitStep, hm1, hs1]
  have hfirst : splitRunFrom ⟨[], none, []⟩
        (m1 :: ((b0 :: brest) ++ (m2 :: (c0 :: crest))))
      = splitRunFrom ⟨[], some name, []⟩
        ((b0 :: brest) ++ (m2 :: (c0 :: crest))) := by
    simp only [splitRunFrom, hstep1]
  have hstep2 : splitStep ⟨[], some name, b0 :: brest⟩ m2 =
      Except.ok ⟨[(some name, t1)], some name, []⟩ := by
    simp [splitStep, hm2, hs2, hn, hcsv1, updateAssoc]
  have hmid : splitRunFrom ⟨[], some name, b0 :: brest⟩
        (m2 :: (c0 :: crest))
      = splitRunFrom ⟨[(some name, t1)], some name, []⟩ (c0 :: crest) := by
    simp only [splitRunFrom, hstep2]
  have hlast : splitRunFrom ⟨[(some name, t1)], some name, []⟩ (c0 :: crest)
      = Except.ok ⟨[(some name, t1)], some name, c0 :: crest⟩ := by
    simpa using splitRunFrom_data name hn (c0 :: crest) hnm2 [(some name, t1)] []
  have hwhole : splitRunFrom ⟨[], none, []⟩
        (m1 :: ((b0 :: brest) ++ (m2 :: (c0 :: crest))))
      = Except.ok ⟨[(some name, t1)], some name, c0 :: crest⟩ := by
    rw [hfirst,
      splitRunFrom_data_append name hn (b0 :: brest) (m2 :: (c0 :: crest))
        hnm1 [] []]
    simp only [List.nil_append]
    rw [hmid, hlast]
  refine ⟨⟨some (splitTab c0), crest.map splitTab⟩, ?_,
    readCsv_infer c0 crest hnb2, ?_⟩
  · simp only [splitFile, hwhole, splitFinish,
      readCsv_infer c0 crest hnb2]
    simp [updateAssoc]
  · simp only [splitFileWrites, splitFile, hwhole, splitFinish,
      readCsv_infer c0 crest hnb2]
    simp [updateAssoc, outputFileName]

/-- Witness for C9 at a concrete input: two sections both named `A`;
only the second one's table survives and is written to `A.tsv`. -/
theorem claim_C9_witness :
    ∃ t2, splitFile ("[A]" :: (["x\ty", "1\t2"] ++ ("[A]" :: ["p\tq", "3\t4"]))) =
        Except.ok [(some "A", t2)]
      ∧ readCsv true ["p\tq", "3\t4"] = Except.ok t2
      ∧ splitFileWrites ("[A]" :: (["x\ty", "1\t2"] ++ ("[A]" :: ["p\tq", "3\t4"]))) =
          [("A" ++ ".tsv", t2)] :=
  claim_C9_duplicate_section_last_wins "[A]" "[A]" "A"
    ["x\ty", "1\t2"] ["p\tq", "3\t4"]
    (by decide) (by decide) (by decide) (by decide) (by decide)
    (by decide) (by decide) (by decide) (by decide) (by decide) (by decide)

/-- C4: if any of the seven target columns is absent from the input
Probes table, the column-trim stage raises a missing-column `KeyError`
and never produces an output table. -/
theorem claim_C4_missing_column_fails (t : ProbesTable) (c : String)
    (hc : c ∈ COLUMNS_TO_DROP) (habs : t.cols.contains c = false) :
    removeColumnsRun t = Except.error "KeyError: not found in axis" := by
  simp only [removeColumnsRun]
  rw [if_neg]
  intro hall
  rw [List.all_eq_true] at hall
  have hct := hall c hc
  rw [habs] at hct
  exact Bool.false_ne_true hct

/-- Witness for C4 at a concrete input: a Probes table lacking the
target column `Definition` fails the stage. -/
theorem claim_C4_witness :
    removeColumnsRun ⟨["Probe_Id", "GeneSymbol"], [["1", "g"]]⟩ =
      Except.error "KeyError: not found in axis" :=
  claim_C4_missing_column_fails ⟨["Probe_Id", "GeneSymbol"], [["1", "g"]]⟩
    "Definition" (by decide) (by decide)

/-- Counterexample to C5 as stated: on a Probes table whose columns are
exactly `Probe_Id, Definition, Ontology_Component, GeneSymbol,
Probe_Sequence`, the trim stage raises a `KeyError` (the four other
columns of the drop list are absent and pandas `drop` defaults to
`errors='raise'`) instead of producing the `Probe_Id, GeneSymbol`
table. -/
theorem claim_C5_counterexample :
    removeColumnsRun ⟨["Probe_Id", "Definition", "Ontology_Component",
        "GeneSymbol", "Probe_Sequence"], [["1", "d", "c", "g", "s"]]⟩ =
      Except.error "KeyError: not found in axis" := by
  rfl

/-- C5 amended: when the input Probes table additionally carries the
remaining four target columns — so all seven drop targets are present —
the trim stage succeeds and retains exactly `Probe_Id` and `GeneSymbol`,
in their original relative order. -/
theorem claim_C5_amended_trim_keeps_columns (rows : List (List String)) :
    ∃ out, removeColumnsRun ⟨["Probe_Id", "Definition",
        "Ontology_Component", "Ontology_Process", "Ontology_Function",
        "Synonyms", "Obsolete_Probe_Id", "GeneSymbol", "Probe_Sequence"],
        rows⟩ = Except.ok out
      ∧ out.cols = ["Probe_Id", "GeneSymbol"] := by
  simp only [removeColumnsRun]
  rw [if_pos (by decide)]
  refine ⟨_, rfl, ?_⟩
  rfl

/-- Witness for C5 amended at a concrete input (one data row). -/
theorem claim_C5_amended_witness :
    ∃ out, removeColumnsRun ⟨["Probe_Id", "Definition",
        "Ontology_Component", "Ontology_Process", "Ontology_Function",
        "Synonyms", "Obsolete_Probe_Id", "GeneSymbol", "Probe_Sequence"],
        [["1", "d", "c", "p", "f", "s", "o", "g", "q"]]⟩ = Except.ok out
      ∧ out.cols = ["Probe_Id", "GeneSymbol"] :=
  claim_C5_amended_trim_keeps_columns [["1", "d", "c", "p", "f", "s", "o", "g", "q"]]

/-- Counterexample to C3 as stated: the cleanup marker is not written
into the split directory — `Cleanup.requires` is `RemoveColumns`, so
`self.input().path` is the `_final` directory, not `_split`. -/
theorem claim_C3_counterexample :
    ¬ (cleanupOutputPath "GSE68849" =
        joinPath (splitOutputPath "GSE68849") "cleanup_complete.txt") := by
  decide

/-- C3 amended: the Cleanup stage deletes every `.txt` file in its input
directory, which is the final directory `D_final` produced by
`RemoveColumns` (not the split directory), and writes its completion
marker at `D_final/cleanup_complete.txt`; the marker's presence is the
stage's completion checkpoint. -/
theorem claim_C3_cleanup_in_final_dir (d : String) (files : List String) :
    cleanupOutputPath d =
      joinPath (removeColumnsOutputPath d) "cleanup_complete.txt"
    ∧ ∀ f ∈ files, endsWithTxt f = true → f ∉ cleanupRemaining files := by
  refine ⟨rfl, ?_⟩
  intro f _ htxt hmem
  rw [cleanupRemaining, List.mem_filter, htxt] at hmem
  exact Bool.false_ne_true hmem.2

/-- Witness for C3 amended at a concrete input: dataset `GSE68849` with
a directory holding one `.txt` and one `.tsv` file. -/
theorem claim_C3_witness :
    cleanupOutputPath "GSE68849" =
      joinPath (removeColumnsOutputPath "GSE68849") "cleanup_complete.txt"
    ∧ "a.txt" ∉ cleanupRemaining ["a.txt", "b.tsv"] :=
  ⟨(claim_C3_cleanup_in_final_dir "GSE68849" ["a.txt", "b.tsv"]).1,
   (claim_C3_cleanup_in_final_dir "GSE68849" ["a.txt", "b.tsv"]).2
     "a.txt" (by decide) (by decide)⟩

/-- C7: the dependency chain resolved from the wrapper task is exactly
Download, Extract, Split, Trim, Cleanup (then the wrapper), the stages
actually run are a subsequence of that fixed order (never reordered),
and a chained stage whose checkpoint is absent is always run, never
skipped. -/
theorem claim_C7_chain_order (done : Stage → Bool) :
    resolveChain Stage.pipeline =
      [Stage.download, Stage.extractArchive, Stage.splitTables,
       Stage.removeColumns, Stage.cleanup, Stage.pipeline]
    ∧ List.Sublist (runPipeline done Stage.pipeline)
        (resolveChain Stage.pipeline)
    ∧ ∀ s ∈ resolveChain Stage.pipeline, done s = false →
        s ∈ runPipeline done Stage.pipeline := by
  refine ⟨by decide, ?_, ?_⟩
  · rw [runPipeline]
    exact List.filter_sublist _
  · intro s hs hdone
    rw [runPipeline, List.mem_filter]
    refine ⟨hs, ?_⟩
    rw [hdone]
    rfl

/-- Witness for C7 at a concrete input: with no checkpoint present, the
split stage is among the stages run. -/
theorem claim_C7_witness :
    Stage.splitTables ∈ runPipeline (fun _ => false) Stage.pipeline :=
  (claim_C7_chain_order (fun _ => false)).2.2 Stage.splitTables
    (by decide) rfl

/-- C8: after one successful pipeline run every chained stage's output
target exists, so an immediately repeated run with no intervening
filesystem change skips every stage (runs nothing) and leaves the
on-disk state unchanged. -/
theorem claim_C8_second_run_noop (done : Stage → Bool) :
    (∀ s ∈ resolveChain Stage.pipeline,
        afterRun done Stage.pipeline s = true)
    ∧ runPipeline (afterRun done Stage.pipeline) Stage.pipeline = []
    ∧ ∀ s : Stage, afterRun (afterRun done Stage.pipeline) Stage.pipeline s
        = afterRun done Stage.pipeline s := by
  have hall : ∀ s ∈ resolveChain Stage.pipeline,
      afterRun done Stage.pipeline s = true := by
    intro s hs
    by_cases hd : done s = true
    · simp [afterRun, hd]
    · have hmem : s ∈ runPipeline done Stage.pipeline := by
        rw [runPipeline, List.mem_filter]
        refine ⟨hs, ?_⟩
        rw [Bool.not_eq_true] at hd
        rw [hd]
        rfl
      simp [afterRun, hmem]
  have hempty : runPipeline (afterRun done Stage.pipeline) Stage.pipeline
      = [] := by
    rw [runPipeline, List.filter_eq_nil_iff]
    intro a ha
    rw [hall a ha]
    simp
  refine ⟨hall, hempty, ?_⟩
  intro s
  simp [afterRun, hempty]

/-- Witness for C8 at a concrete input: starting from no checkpoints,
the run after the first one executes nothing. -/
theorem claim_C8_witness :
    runPipeline (afterRun (fun _ => false) Stage.pipeline) Stage.pipeline
      = [] :=
  (claim_C8_second_run_noop (fun _ => false)).2.1

end LuigiPipeline
